import Mathlib

/-!
Shallow embedding of the ecr-watch program (src/main.go).

The program is a single polling loop over a container registry:
list image identifiers (paginated), filter them by a compiled tag
pattern, describe them to get push timestamps and tag sets, select the
newest, compare against the stored previous newest, and either exit
(printing the comma-joined tag list to standard output) or record the
new value and sleep.

Modelling decisions:
- Go time.Time is modelled as Nat: the zero Nat is the zero time value
  (time.Time is zero exactly when IsZero holds), After is the strict
  order on Nat.
- Go pointers (the aws String and Time pointers) are Option values; the
  aws helper functions StringValue, TimeValue and StringValueSlice that
  dereference them with a zero default are embedded one to one.
- The compiled regular expression tagRegexp is modelled by its
  MatchString function, an arbitrary function from String to Bool; a
  concrete instantiation in a theorem below always corresponds to a
  compilable Go pattern and is noted there.
- The registry is the environment: each iteration of the outer loop
  observes either a listing error, a describe error, or the list of
  image details the describe call returned (CycleObs). The inner
  pagination loop over ListImages responses is embedded separately as
  listImagesLoop over the sequence of pages the service returns.
- Standard output is threaded as an accumulating string: the only write
  to standard output in the program is the fmt.Print of the joined tag
  list right before the successful return; the logger writes to
  standard error, which is not part of the model. Outcome.success is
  exit status 0, Outcome.fatal is the non-zero exit of logger.Fatal,
  and Outcome.running means the observation script ran out with the
  loop still going (its Nat field is the stored state at that point).
-/

namespace EcrWatch

/-- Embeds aws.StringValue: dereference a Go string pointer, where a nil
pointer yields the empty string. -/
def aws_StringValue (p : Option String) : String :=
  p.getD ""

/-- Embeds aws.TimeValue: dereference a Go time pointer, where a nil
pointer yields the zero time (modelled as 0). -/
def aws_TimeValue (p : Option Nat) : Nat :=
  p.getD 0

/-- Embeds aws.StringValueSlice: dereference each element of a slice of
string pointers. -/
def aws_StringValueSlice (ps : List (Option String)) : List String :=
  ps.map aws_StringValue

/-- Embeds ecr.ImageIdentifier: a digest and tag pair, both optional. -/
structure ImageIdentifier where
  imageDigest : Option String
  imageTag : Option String
deriving DecidableEq

/-- Embeds ecr.ImageDetail, restricted to the fields the program reads:
the push timestamp pointer and the slice of tag pointers. -/
structure ImageDetail where
  imagePushedAt : Option Nat
  imageTags : List (Option String)
deriving DecidableEq

/-- One page returned by the ListImages call: image identifiers plus an
optional continuation token. -/
structure ListImagesPage where
  imageIds : List ImageIdentifier
  nextToken : Option String
deriving DecidableEq

/-- Embeds the tag filter of the listing loop (main.go lines 73-78): an
identifier is appended exactly when MatchString succeeds on the
dereferenced tag value. -/
def matchedIds (matchString : String → Bool) (ids : List ImageIdentifier) :
    List ImageIdentifier :=
  ids.filter (fun imageID => matchString (aws_StringValue imageID.imageTag))

/-- Embeds the pagination loop of main.go lines 67-85 over the sequence
of pages the service returns: each call consumes one page, the matched
identifiers of the page are appended to the accumulator, and the loop
continues exactly when the page carries a continuation token. The
result also counts the number of ListImages calls made. The loop always
makes a call, so an empty page sequence has no modelled outcome. -/
def listImagesLoop (matchString : String → Bool)
    (acc : List ImageIdentifier) :
    List ListImagesPage → Option (List ImageIdentifier × Nat)
  | [] => none
  | page :: rest =>
      let acc2 := acc ++ matchedIds matchString page.imageIds
      match page.nextToken with
      | some _ => (listImagesLoop matchString acc2 rest).map
          (fun r => (r.1, r.2 + 1))
      | none => some (acc2, 1)

/-- Embeds the body of the selection loop of main.go lines 99-104: a
detail replaces the candidate exactly when its dereferenced push
timestamp is strictly after the candidate timestamp, in which case both
the timestamp and the dereferenced tag slice are recorded. -/
def mostRecentImageStep (cand : Nat × List String) (imageDetail : ImageDetail) :
    Nat × List String :=
  if cand.1 < aws_TimeValue imageDetail.imagePushedAt then
    (aws_TimeValue imageDetail.imagePushedAt,
      aws_StringValueSlice imageDetail.imageTags)
  else
    cand

/-- Embeds the newest-selection scan of main.go lines 97-104: fold the
step over the described details starting from the zero timestamp and
the empty tag list. -/
def mostRecentImage (imageDetails : List ImageDetail) : Nat × List String :=
  imageDetails.foldl mostRecentImageStep (0, [])

/-- One observation of the environment per iteration of the outer loop:
the listing failed at some page, the describe call failed, or the
describe call returned this list of image details. -/
inductive CycleObs where
  | listError : CycleObs
  | describeError : CycleObs
  | ok : List ImageDetail → CycleObs
deriving DecidableEq

/-- Observable outcome of a run: success carries the full standard
output of the process and exit status 0; fatal carries the standard
output at the point logger.Fatal fired (non-zero exit); running means
the observation script was exhausted with the loop still going and
carries the standard output so far and the stored timestamp state. -/
inductive Outcome where
  | success : String → Outcome
  | fatal : String → Outcome
  | running : String → Nat → Outcome
deriving DecidableEq

/-- Embeds the outer loop of main.go lines 61-116, driven by a script of
per-cycle observations. The stored state mostRecentImagePushedAt starts
at the zero time; a cycle exits successfully exactly when the stored
state is not zero and the current newest timestamp is strictly after it
(line 106), printing the comma-joined current tag list (line 108);
otherwise the stored state is overwritten with the current value
(line 112) and the loop continues. Errors from either registry call are
fatal immediately (lines 70 and 94). -/
def runWatch (stdout : String) (mostRecentImagePushedAt : Nat) :
    List CycleObs → Outcome
  | [] => Outcome.running stdout mostRecentImagePushedAt
  | CycleObs.listError :: _ => Outcome.fatal stdout
  | CycleObs.describeError :: _ => Outcome.fatal stdout
  | CycleObs.ok imageDetails :: rest =>
      let current := mostRecentImage imageDetails
      if mostRecentImagePushedAt ≠ 0 ∧ mostRecentImagePushedAt < current.1 then
        Outcome.success (stdout ++ String.intercalate "," current.2)
      else
        runWatch stdout current.1 rest

/-- Unfolding equation for a cycle with a successful describe call. -/
theorem runWatch_ok_cons (s : String) (prior : Nat)
    (imageDetails : List ImageDetail) (rest : List CycleObs) :
    runWatch s prior (CycleObs.ok imageDetails :: rest) =
      if prior ≠ 0 ∧ prior < (mostRecentImage imageDetails).1 then
        Outcome.success (s ++ String.intercalate "," (mostRecentImage imageDetails).2)
      else
        runWatch s (mostRecentImage imageDetails).1 rest := rfl

/-- The step never lowers the candidate timestamp. -/
theorem mostRecentImageStep_fst_le (cand : Nat × List String) (d : ImageDetail) :
    cand.1 ≤ (mostRecentImageStep cand d).1 := by
  unfold mostRecentImageStep
  split
  · exact le_of_lt (by assumption)
  · exact le_refl _

/-- After the step, the candidate timestamp is at least the timestamp of
the detail just scanned. -/
theorem mostRecentImageStep_arg_le (cand : Nat × List String) (d : ImageDetail) :
    aws_TimeValue d.imagePushedAt ≤ (mostRecentImageStep cand d).1 := by
  unfold mostRecentImageStep
  split
  · exact le_refl _
  · exact le_of_not_lt (by assumption)

/-- The fold never lowers the candidate timestamp. -/
theorem foldl_mostRecentImageStep_fst_le (l : List ImageDetail) :
    ∀ c : Nat × List String, c.1 ≤ (l.foldl mostRecentImageStep c).1 := by
  induction l with
  | nil => intro c; exact le_refl _
  | cons d t ih =>
      intro c
      rw [List.foldl_cons]
      exact le_trans (mostRecentImageStep_fst_le c d) (ih (mostRecentImageStep c d))

/-- The fold result dominates the timestamp of every scanned detail. -/
theorem foldl_mostRecentImageStep_mem_le (l : List ImageDetail) :
    ∀ (c : Nat × List String) (d : ImageDetail), d ∈ l →
      aws_TimeValue d.imagePushedAt ≤ (l.foldl mostRecentImageStep c).1 := by
  induction l with
  | nil => intro c d h; cases h
  | cons e t ih =>
      intro c d h
      rw [List.foldl_cons]
      rcases List.mem_cons.mp h with h1 | h2
      · subst h1
        exact le_trans (mostRecentImageStep_arg_le c d)
          (foldl_mostRecentImageStep_fst_le t (mostRecentImageStep c d))
      · exact ih (mostRecentImageStep c e) d h2

/-- The fold result is either the initial candidate or the timestamp and
tag slice of some scanned detail whose timestamp strictly exceeds the
initial candidate timestamp. -/
theorem foldl_mostRecentImageStep_attained (l : List ImageDetail) :
    ∀ c : Nat × List String,
      l.foldl mostRecentImageStep c = c ∨
      ∃ d ∈ l, l.foldl mostRecentImageStep c =
          (aws_TimeValue d.imagePushedAt, aws_StringValueSlice d.imageTags) ∧
        c.1 < aws_TimeValue d.imagePushedAt := by
  induction l with
  | nil => intro c; left; rfl
  | cons e t ih =>
      intro c
      rw [List.foldl_cons]
      by_cases h : c.1 < aws_TimeValue e.imagePushedAt
      · have hstep : mostRecentImageStep c e =
            (aws_TimeValue e.imagePushedAt, aws_StringValueSlice e.imageTags) := by
          unfold mostRecentImageStep
          rw [if_pos h]
        rw [hstep]
        rcases ih (aws_TimeValue e.imagePushedAt, aws_StringValueSlice e.imageTags) with
          h1 | ⟨d, hd, heq, hlt⟩
        · right
          exact ⟨e, List.mem_cons_self e t, h1, h⟩
        · right
          exact ⟨d, List.mem_cons_of_mem e hd, heq, lt_trans h hlt⟩
      · have hstep : mostRecentImageStep c e = c := by
          unfold mostRecentImageStep
          rw [if_neg h]
        rw [hstep]
        rcases ih c with h1 | ⟨d, hd, heq, hlt⟩
        · left; exact h1
        · right; exact ⟨d, List.mem_cons_of_mem e hd, heq, hlt⟩

/-- A zero result timestamp forces the whole result to be the initial
zero candidate with the empty tag list. -/
theorem mostRecentImage_fst_zero (l : List ImageDetail)
    (h : (mostRecentImage l).1 = 0) : mostRecentImage l = (0, []) := by
  rcases foldl_mostRecentImageStep_attained l (0, []) with h1 | ⟨d, _, heq, hlt⟩
  · exact h1
  · unfold mostRecentImage at h
    rw [heq] at h
    omega

/-- Appending one detail to the scanned list applies exactly one step to
the previous result. -/
theorem mostRecentImage_append (l : List ImageDetail) (d : ImageDetail) :
    mostRecentImage (l ++ [d]) = mostRecentImageStep (mostRecentImage l) d := by
  unfold mostRecentImage
  rw [List.foldl_append]
  rfl

/-- When every detail has the zero timestamp, the scan returns the zero
candidate. -/
theorem mostRecentImage_all_zero (l : List ImageDetail)
    (h : ∀ d ∈ l, aws_TimeValue d.imagePushedAt = 0) :
    mostRecentImage l = (0, []) := by
  rcases foldl_mostRecentImageStep_attained l (0, []) with h1 | ⟨d, hd, _, hlt⟩
  · exact h1
  · rw [h d hd] at hlt
    omega

/-- In any fatal outcome, standard output is exactly what had been
written when the run started: no registry error path writes to standard
output. -/
theorem runWatch_fatal_stdout (s : String) :
    ∀ (script : List CycleObs) (prior : Nat) (out : String),
      runWatch s prior script = Outcome.fatal out → out = s := by
  intro script
  induction script with
  | nil =>
      intro prior out h
      exact absurd h (by simp [runWatch])
  | cons obs rest ih =>
      intro prior out h
      cases obs with
      | listError =>
          rw [show runWatch s prior (CycleObs.listError :: rest) =
              Outcome.fatal s from rfl] at h
          exact (Outcome.fatal.inj h).symm
      | describeError =>
          rw [show runWatch s prior (CycleObs.describeError :: rest) =
              Outcome.fatal s from rfl] at h
          exact (Outcome.fatal.inj h).symm
      | ok imageDetails =>
          rw [runWatch_ok_cons] at h
          by_cases hg : prior ≠ 0 ∧ prior < (mostRecentImage imageDetails).1
          · rw [if_pos hg] at h
            exact absurd h (by simp)
          · rw [if_neg hg] at h
            exact ih (mostRecentImage imageDetails).1 out h

/-- Pagination helper: if every page in the front carries a continuation
token and the final page carries none, the loop consumes exactly the
given pages, appending the matched identifiers of each page in order,
and makes one ListImages call per page. -/
theorem listImagesLoop_go (m : String → Bool) (plast : ListImagesPage)
    (hlast : plast.nextToken = none) :
    ∀ front : List ListImagesPage, (∀ p ∈ front, p.nextToken.isSome) →
      ∀ acc : List ImageIdentifier,
        listImagesLoop m acc (front ++ [plast]) =
          some (acc ++ ((front ++ [plast]).map
            (fun p => matchedIds m p.imageIds)).flatten, front.length + 1) := by
  intro front
  induction front with
  | nil =>
      intro _ acc
      simp [listImagesLoop, hlast]
  | cons p t ih =>
      intro hfront acc
      obtain ⟨tok, htok⟩ := Option.isSome_iff_exists.mp
        (hfront p (List.mem_cons_self p t))
      have ht : ∀ q ∈ t, q.nextToken.isSome :=
        fun q hq => hfront q (List.mem_cons_of_mem p hq)
      rw [List.cons_append]
      rw [show listImagesLoop m acc (p :: (t ++ [plast])) =
          (listImagesLoop m (acc ++ matchedIds m p.imageIds) (t ++ [plast])).map
            (fun r => (r.1, r.2 + 1)) from by
        simp [listImagesLoop, htok]]
      rw [ih ht (acc ++ matchedIds m p.imageIds)]
      simp [List.append_assoc]

/-- C4: the newest-selection scan starts from the zero timestamp with an
empty tag list (the empty-list result); a detail whose timestamp is at
most the current result timestamp (ties included) leaves the result
unchanged, while a strictly later one replaces both the timestamp and
the full tag slice (overwriting, not accumulating); the result
dominates the timestamp of every scanned detail and, when non-zero, is
exactly the timestamp and tag slice of a scanned detail. -/
theorem mostRecentImage_spec :
    (mostRecentImage [] = (0, [])) ∧
    (∀ (l : List ImageDetail) (d : ImageDetail),
        aws_TimeValue d.imagePushedAt ≤ (mostRecentImage l).1 →
        mostRecentImage (l ++ [d]) = mostRecentImage l) ∧
    (∀ (l : List ImageDetail) (d : ImageDetail),
        (mostRecentImage l).1 < aws_TimeValue d.imagePushedAt →
        mostRecentImage (l ++ [d]) =
          (aws_TimeValue d.imagePushedAt, aws_StringValueSlice d.imageTags)) ∧
    (∀ (l : List ImageDetail) (d : ImageDetail), d ∈ l →
        aws_TimeValue d.imagePushedAt ≤ (mostRecentImage l).1) ∧
    (∀ l : List ImageDetail, (mostRecentImage l).1 ≠ 0 →
        ∃ d ∈ l, aws_TimeValue d.imagePushedAt = (mostRecentImage l).1 ∧
          aws_StringValueSlice d.imageTags = (mostRecentImage l).2) := by
  refine ⟨rfl, ?_, ?_, ?_, ?_⟩
  · intro l d h
    rw [mostRecentImage_append]
    unfold mostRecentImageStep
    rw [if_neg (not_lt.mpr h)]
  · intro l d h
    rw [mostRecentImage_append]
    unfold mostRecentImageStep
    rw [if_pos h]
  · intro l d h
    exact foldl_mostRecentImageStep_mem_le l (0, []) d h
  · intro l h
    rcases foldl_mostRecentImageStep_attained l (0, []) with h1 | ⟨d, hd, heq, _⟩
    · exact absurd (congrArg Prod.fst h1) h
    · exact ⟨d, hd, (congrArg Prod.fst heq).symm, (congrArg Prod.snd heq).symm⟩

/-- Witness for mostRecentImage_spec at concrete inputs: a second detail
tied at timestamp 5 does not overwrite, a detail at timestamp 7
replaces the candidate, the result dominates a member, and the non-zero
result is attained by a scanned detail. -/
theorem mostRecentImage_spec_witness :
    (mostRecentImage ([ImageDetail.mk (some 5) [some "a"]] ++
        [ImageDetail.mk (some 5) [some "b"]]) =
      mostRecentImage [ImageDetail.mk (some 5) [some "a"]]) ∧
    (mostRecentImage ([ImageDetail.mk (some 5) [some "a"]] ++
        [ImageDetail.mk (some 7) [some "c"]]) =
      (aws_TimeValue (some 7), aws_StringValueSlice [some "c"])) ∧
    (aws_TimeValue (ImageDetail.mk (some 5) [some "a"]).imagePushedAt ≤
      (mostRecentImage [ImageDetail.mk (some 5) [some "a"],
        ImageDetail.mk (some 3) []]).1) ∧
    (∃ d ∈ [ImageDetail.mk (some 5) [some "a"], ImageDetail.mk (some 3) []],
      aws_TimeValue d.imagePushedAt =
        (mostRecentImage [ImageDetail.mk (some 5) [some "a"],
          ImageDetail.mk (some 3) []]).1 ∧
      aws_StringValueSlice d.imageTags =
        (mostRecentImage [ImageDetail.mk (some 5) [some "a"],
          ImageDetail.mk (some 3) []]).2) := by
  refine ⟨?_, ?_, ?_, ?_⟩
  · exact mostRecentImage_spec.2.1 _ _ (by decide)
  · exact mostRecentImage_spec.2.2.1 _ _ (by decide)
  · exact mostRecentImage_spec.2.2.2.1 _ _ (by decide)
  · exact mostRecentImage_spec.2.2.2.2 _ (by decide)

/-- C5: with continuation tokens on every page except the last and none
on the last, the pagination loop makes exactly one ListImages call per
page, accumulates the matched identifiers of all pages in order exactly
once, and terminates after the last page, before any describe call. -/
theorem listImagesLoop_paginates (m : String → Bool)
    (front : List ListImagesPage) (plast : ListImagesPage)
    (hfront : ∀ p ∈ front, p.nextToken.isSome)
    (hlast : plast.nextToken = none) :
    listImagesLoop m [] (front ++ [plast]) =
      some (((front ++ [plast]).map (fun p => matchedIds m p.imageIds)).flatten,
        front.length + 1) := by
  rw [listImagesLoop_go m plast hlast front hfront []]
  rw [List.nil_append]

/-- Witness for listImagesLoop_paginates: two pages, a token on the
first only; the matching identifiers of both pages are accumulated in
order and exactly two calls are made. -/
theorem listImagesLoop_paginates_witness :
    listImagesLoop (fun t => t == "latest") []
        ([ListImagesPage.mk [ImageIdentifier.mk (some "d1") (some "latest")]
            (some "tok")] ++
          [ListImagesPage.mk
            [ImageIdentifier.mk (some "d2") (some "dev"),
              ImageIdentifier.mk (some "d3") (some "latest")] none]) =
      some ([ImageIdentifier.mk (some "d1") (some "latest"),
        ImageIdentifier.mk (some "d3") (some "latest")], 2) := by
  rw [listImagesLoop_paginates (fun t => t == "latest") _ _ (by decide) rfl]
  decide

/-- C8: on the first poll cycle the stored state is the zero time, so
for every successful observation (including an empty match set) the
cycle never exits: it unconditionally records the observed newest
timestamp as the new stored state and continues with the rest of the
script. -/
theorem runWatch_firstPoll (s : String) (imageDetails : List ImageDetail)
    (rest : List CycleObs) :
    runWatch s 0 (CycleObs.ok imageDetails :: rest) =
      runWatch s (mostRecentImage imageDetails).1 rest := by
  rw [runWatch_ok_cons]
  rw [if_neg (by simp)]

/-- C9: a detecting execution whose newest image on the terminating
cycle has an empty tag slice prints the empty string: poll 1 records
timestamp 5, poll 2 sees timestamp 7 with no tags, and the run exits
successfully with empty standard output. -/
theorem runWatch_emptyTags_output :
    runWatch "" 0
        [CycleObs.ok [ImageDetail.mk (some 5) [some "a"]],
          CycleObs.ok [ImageDetail.mk (some 7) []]] =
      Outcome.success "" := by
  decide

/-- C10: a described detail with the zero (or absent) push timestamp is
never selected: a zero result timestamp forces the zero candidate with
the empty tag list, a cycle whose details all have zero timestamps
yields the zero candidate, and such a cycle can never trigger
termination, for any stored state: the run records zero and
continues. -/
theorem mostRecentImage_zero_never_selected :
    (∀ imageDetails : List ImageDetail,
        (mostRecentImage imageDetails).1 = 0 →
        mostRecentImage imageDetails = (0, [])) ∧
    (∀ imageDetails : List ImageDetail,
        (∀ d ∈ imageDetails, aws_TimeValue d.imagePushedAt = 0) →
        mostRecentImage imageDetails = (0, [])) ∧
    (∀ (s : String) (prior : Nat) (imageDetails : List ImageDetail)
        (rest : List CycleObs),
        (∀ d ∈ imageDetails, aws_TimeValue d.imagePushedAt = 0) →
        runWatch s prior (CycleObs.ok imageDetails :: rest) =
          runWatch s 0 rest) := by
  refine ⟨mostRecentImage_fst_zero, mostRecentImage_all_zero, ?_⟩
  intro s prior imageDetails rest h
  have hz : mostRecentImage imageDetails = (0, []) :=
    mostRecentImage_all_zero imageDetails h
  rw [runWatch_ok_cons, hz]
  rw [if_neg (by simp)]

/-- Witness for mostRecentImage_zero_never_selected: two details, one
with an absent timestamp and tag x, one with timestamp 0; the scan
returns the zero candidate with no tags and a cycle observing them
never exits even from a non-zero stored state. -/
theorem mostRecentImage_zero_never_selected_witness :
    (mostRecentImage [ImageDetail.mk none [some "x"], ImageDetail.mk (some 0) []] =
      (0, [])) ∧
    (runWatch "" 5
        [CycleObs.ok [ImageDetail.mk none [some "x"], ImageDetail.mk (some 0) []]] =
      runWatch "" 0 []) := by
  refine ⟨?_, ?_⟩
  · exact mostRecentImage_zero_never_selected.2.1 _ (by decide)
  · exact mostRecentImage_zero_never_selected.2.2 "" 5 _ [] (by decide)

/-- C1 counterexample: poll 1 finds no matching images and records the
zero timestamp; poll 2 observes timestamp 5, which is strictly later
than the stored zero. The claim says the program terminates after
poll 2, but the guard on line 106 also requires the stored state to be
non-zero, so the run is still in the loop with stored state 5 (it did
not exit with success). -/
theorem runWatch_zeroFirstPoll_counterexample :
    runWatch "" 0
        [CycleObs.ok [], CycleObs.ok [ImageDetail.mk (some 5) [some "v1"]]] =
      Outcome.running "" 5 := by
  decide

/-- C1 amended: a cycle exits successfully exactly when the stored state
is non-zero and the current newest timestamp is strictly later;
otherwise the cycle records the current timestamp and continues. In
particular, when poll 1 records the zero timestamp, poll 2 never
terminates regardless of the non-zero timestamp it observes: it records
that timestamp and continues, so termination is possible only from the
first cycle whose predecessor recorded a non-zero state. -/
theorem runWatch_terminationCondition :
    (∀ (s : String) (prior : Nat) (imageDetails : List ImageDetail)
        (rest : List CycleObs),
        prior ≠ 0 → prior < (mostRecentImage imageDetails).1 →
        runWatch s prior (CycleObs.ok imageDetails :: rest) =
          Outcome.success
            (s ++ String.intercalate "," (mostRecentImage imageDetails).2)) ∧
    (∀ (s : String) (prior : Nat) (imageDetails : List ImageDetail)
        (rest : List CycleObs),
        ¬(prior ≠ 0 ∧ prior < (mostRecentImage imageDetails).1) →
        runWatch s prior (CycleObs.ok imageDetails :: rest) =
          runWatch s (mostRecentImage imageDetails).1 rest) ∧
    (∀ (s : String) (ts : Nat) (imageTags : List (Option String))
        (rest : List CycleObs),
        runWatch s 0
            (CycleObs.ok [] ::
              CycleObs.ok [ImageDetail.mk (some ts) imageTags] :: rest) =
          runWatch s ts rest) := by
  refine ⟨?_, ?_, ?_⟩
  · intro s prior imageDetails rest h1 h2
    rw [runWatch_ok_cons]
    rw [if_pos ⟨h1, h2⟩]
  · intro s prior imageDetails rest h
    rw [runWatch_ok_cons]
    rw [if_neg h]
  · intro s ts imageTags rest
    rw [runWatch_ok_cons]
    rw [if_neg (by simp)]
    rw [show (mostRecentImage []).1 = 0 from rfl]
    rw [runWatch_ok_cons]
    rw [if_neg (by simp)]
    have hfst : (mostRecentImage [ImageDetail.mk (some ts) imageTags]).1 = ts := by
      rcases Nat.eq_zero_or_pos ts with h0 | hp
      · subst h0
        rfl
      · show (mostRecentImageStep (0, []) (ImageDetail.mk (some ts) imageTags)).1 = ts
        unfold mostRecentImageStep
        rw [if_pos (by exact hp)]
        rfl
    rw [hfst]

/-- Witness for runWatch_terminationCondition: a cycle with stored state
3 observing timestamp 5 exits printing the joined tags, a cycle with
stored state 5 observing timestamp 5 continues, and a run whose first
poll records zero continues after its second poll observes 5. -/
theorem runWatch_terminationCondition_witness :
    (runWatch "" 3 [CycleObs.ok [ImageDetail.mk (some 5) [some "v2"]]] =
      Outcome.success
        ("" ++ String.intercalate ","
          (mostRecentImage [ImageDetail.mk (some 5) [some "v2"]]).2)) ∧
    (runWatch "" 5 [CycleObs.ok [ImageDetail.mk (some 5) [some "w"]]] =
      runWatch ""
        (mostRecentImage [ImageDetail.mk (some 5) [some "w"]]).1 []) ∧
    (runWatch "" 0
        [CycleObs.ok [], CycleObs.ok [ImageDetail.mk (some 5) [some "v1"]]] =
      runWatch "" 5 []) := by
  refine ⟨?_, ?_, ?_⟩
  · exact runWatch_terminationCondition.1 "" 3 _ [] (by decide) (by decide)
  · exact runWatch_terminationCondition.2.1 "" 5 _ [] (by decide)
  · exact runWatch_terminationCondition.2.2 "" 5 [some "v1"] []

/-- C2 counterexample: the stored state becomes 5 after poll 1 (so it is
non-zero), and poll 2 observes timestamp 3; the comparison only gates
termination, not the update, so the stored state is rolled back to 3,
refuting monotonicity. -/
theorem runWatch_monotonicity_counterexample :
    (runWatch "" 0 [CycleObs.ok [ImageDetail.mk (some 5) []]] =
      Outcome.running "" 5) ∧
    (runWatch "" 0
        [CycleObs.ok [ImageDetail.mk (some 5) []],
          CycleObs.ok [ImageDetail.mk (some 3) []]] =
      Outcome.running "" 3) := by
  decide

/-- C2 amended: the stored state is not monotone: every non-terminating
cycle overwrites it with the current newest timestamp, even when that
value is strictly smaller than the stored state or zero; a cycle whose
current timestamp is at most the stored state always continues and
leaves the current timestamp as the new stored state, and a cycle from
the zero stored state does the same unconditionally. -/
theorem runWatch_stateOverwrite :
    (∀ (s : String) (prior : Nat) (imageDetails : List ImageDetail),
        (mostRecentImage imageDetails).1 ≤ prior →
        runWatch s prior [CycleObs.ok imageDetails] =
          Outcome.running s (mostRecentImage imageDetails).1) ∧
    (∀ (s : String) (imageDetails : List ImageDetail),
        runWatch s 0 [CycleObs.ok imageDetails] =
          Outcome.running s (mostRecentImage imageDetails).1) := by
  refine ⟨?_, ?_⟩
  · intro s prior imageDetails h
    rw [runWatch_ok_cons]
    rw [if_neg (by
      intro hc
      exact absurd h (not_le.mpr hc.2))]
    rfl
  · intro s imageDetails
    rw [runWatch_ok_cons]
    rw [if_neg (by simp)]
    rfl

/-- Witness for runWatch_stateOverwrite: from stored state 5, observing
timestamp 3 rolls the stored state back to 3. -/
theorem runWatch_stateOverwrite_witness :
    runWatch "" 5 [CycleObs.ok [ImageDetail.mk (some 3) []]] =
      Outcome.running ""
        (mostRecentImage [ImageDetail.mk (some 3) []]).1 := by
  exact runWatch_stateOverwrite.1 "" 5 _ (by decide)

/-- C3 counterexample: the identifier with an absent tag dereferences to
the empty string (aws.StringValue of a nil pointer), and the matcher
that is true on every string, which is the MatchString function of a
compilable pattern that matches every string (for instance the empty
pattern or a dot-star pattern under search semantics), includes it; the
claim says an identifier with an empty or absent tag is never included,
for any pattern. -/
theorem matchedIds_emptyTag_counterexample :
    (matchedIds (fun _ => true) [ImageIdentifier.mk none none] =
      [ImageIdentifier.mk none none]) ∧
    (aws_StringValue (ImageIdentifier.mk none none).imageTag = "") := by
  decide

/-- C3 amended: an identifier is kept by the filter exactly when it is
on the page and MatchString succeeds on its dereferenced tag value,
where an absent tag reads as the empty string; there is no separate
non-emptiness test, so an identifier with an empty or absent tag is
included whenever the pattern matches the empty string. -/
theorem matchedIds_mem_iff (m : String → Bool) (ids : List ImageIdentifier)
    (imageID : ImageIdentifier) :
    imageID ∈ matchedIds m ids ↔
      imageID ∈ ids ∧ m (aws_StringValue imageID.imageTag) = true := by
  unfold matchedIds
  rw [List.mem_filter]

/-- C6: whenever a run exits successfully, the exit happened at a cycle
reached with a non-zero stored state strictly before the observed
newest timestamp, and the entire standard output of the run is the
output written before the run followed by the comma-joined tag list of
that newest image, with nothing after it; started with empty output,
the process writes exactly the joined tag list, with no trailing
newline and no other standard output, and exits with status 0
(Outcome.success). -/
theorem runWatch_success_output :
    ∀ (script : List CycleObs) (s : String) (prior : Nat) (out : String),
      runWatch s prior script = Outcome.success out →
      ∃ (k : Nat) (imageDetails : List ImageDetail) (rest : List CycleObs)
        (p : Nat),
        script.drop k = CycleObs.ok imageDetails :: rest ∧ p ≠ 0 ∧
        p < (mostRecentImage imageDetails).1 ∧
        runWatch s p (script.drop k) = Outcome.success out ∧
        out = s ++ String.intercalate "," (mostRecentImage imageDetails).2 := by
  intro script
  induction script with
  | nil =>
      intro s prior out h
      exact absurd h (by simp [runWatch])
  | cons obs rest ih =>
      intro s prior out h
      cases obs with
      | listError => exact absurd h (by simp [runWatch])
      | describeError => exact absurd h (by simp [runWatch])
      | ok imageDetails =>
          rw [runWatch_ok_cons] at h
          by_cases hg : prior ≠ 0 ∧ prior < (mostRecentImage imageDetails).1
          · rw [if_pos hg] at h
            refine ⟨0, imageDetails, rest, prior, rfl, hg.1, hg.2, ?_, ?_⟩
            · show runWatch s prior (CycleObs.ok imageDetails :: rest) =
                Outcome.success out
              rw [runWatch_ok_cons]
              rw [if_pos hg]
              exact h
            · exact (Outcome.success.inj h).symm
          · rw [if_neg hg] at h
            obtain ⟨k, d2, r2, p, hdrop, hp, hlt, hrun, hout⟩ :=
              ih s (mostRecentImage imageDetails).1 out h
            refine ⟨k + 1, d2, r2, p, ?_, hp, hlt, ?_, hout⟩
            · rw [List.drop_succ_cons]
              exact hdrop
            · rw [List.drop_succ_cons]
              exact hrun

/-- Witness for runWatch_success_output: poll 1 records timestamp 5,
poll 2 observes timestamp 7 with tags b and c; the run succeeds with
standard output exactly b comma c, and the characterization applies. -/
theorem runWatch_success_output_witness :
    (runWatch "" 0
        [CycleObs.ok [ImageDetail.mk (some 5) [some "a"]],
          CycleObs.ok [ImageDetail.mk (some 7) [some "b", some "c"]]] =
      Outcome.success "b,c") ∧
    (∃ (k : Nat) (imageDetails : List ImageDetail) (rest : List CycleObs)
        (p : Nat),
        ([CycleObs.ok [ImageDetail.mk (some 5) [some "a"]],
            CycleObs.ok [ImageDetail.mk (some 7) [some "b", some "c"]]].drop k =
          CycleObs.ok imageDetails :: rest) ∧ p ≠ 0 ∧
        p < (mostRecentImage imageDetails).1 ∧
        runWatch "" p
            ([CycleObs.ok [ImageDetail.mk (some 5) [some "a"]],
              CycleObs.ok [ImageDetail.mk (some 7) [some "b", some "c"]]].drop k) =
          Outcome.success "b,c" ∧
        "b,c" = "" ++ String.intercalate ","
          (mostRecentImage imageDetails).2) := by
  have h : runWatch "" 0
      [CycleObs.ok [ImageDetail.mk (some 5) [some "a"]],
        CycleObs.ok [ImageDetail.mk (some 7) [some "b", some "c"]]] =
      Outcome.success "b,c" := by decide
  exact ⟨h, runWatch_success_output _ "" 0 "b,c" h⟩

/-- C7: a listing error or a describe error at any poll cycle is
immediately fatal: whatever the stored state and whatever observations
would have followed, the run exits with the non-zero fatal outcome,
ignoring the rest of the script (no retry), and a fatal run started
with empty standard output has written nothing to standard output. -/
theorem runWatch_error_fatal :
    (∀ (s : String) (prior : Nat) (rest : List CycleObs),
        runWatch s prior (CycleObs.listError :: rest) = Outcome.fatal s ∧
        runWatch s prior (CycleObs.describeError :: rest) = Outcome.fatal s) ∧
    (∀ (prior : Nat) (script : List CycleObs) (out : String),
        runWatch "" prior script = Outcome.fatal out → out = "") := by
  refine ⟨fun s prior rest => ⟨rfl, rfl⟩, ?_⟩
  intro prior script out h
  exact runWatch_fatal_stdout "" script prior out h

/-- Witness for runWatch_error_fatal: a describe error on a cycle with
stored state 5 is fatal, the following observation is never consumed,
and the standard output of that fatal run is empty. -/
theorem runWatch_error_fatal_witness :
    (runWatch "" 5 [CycleObs.describeError, CycleObs.ok []] =
      Outcome.fatal "") ∧
    (("" : String) = "") := by
  refine ⟨?_, ?_⟩
  · exact (runWatch_error_fatal.1 "" 5 [CycleObs.ok []]).2
  · exact runWatch_error_fatal.2 5 [CycleObs.describeError] "" (by decide)

end EcrWatch
